import Mathlib

/-!
Verification of the baby-name suggestion engine (`src/main.py`, `src/schemas.py`).

Strings from the source are modelled as Lean `String`; the case-insensitive
substring / first-letter / last-two-letter operations of the source are
modelled on the underlying character lists. Python float arithmetic is
modelled over `ℚ` (every constant in the program is a decimal literal).
-/

namespace BabyNames

/-- Lower-cased character list of a string, modelling `s.lower()`. -/
def lowerStr (s : String) : List Char := s.data.map Char.toLower

/-- Python `needle in hay` substring test on character lists. -/
def pyIn (needle hay : List Char) : Bool :=
  hay.tails.any (fun t => needle.isPrefixOf t)

/-- Python `s.startswith(pre)` on character lists. -/
def pyStartsWith (s pre : List Char) : Bool := pre.isPrefixOf s

/-- Python `s.endswith(suf)` on character lists. -/
def pyEndsWith (s suf : List Char) : Bool := suf.isSuffixOf s

/-- Python slice `s[-2:]` on character lists. -/
def last2 (s : List Char) : List Char := s.drop (s.length - 2)

/-- A record of the static seed catalog `BASIC_NAMES` in `main.py`. -/
structure NameRecord where
  name : String
  gender : String
  origin : String
  meaning : String
  themes : List String
  popularity : ℚ
deriving DecidableEq, Repr

/-- The `Preference` schema from `schemas.py`. -/
structure Preference where
  surname : String
  cultures : List String := []
  languages : List String := []
  beliefs : List String := []
  family_origins : List String := []
  parent_names : List String := []
  sibling_names : List String := []
  gender : Option String := none
  style : Option String := none
  starts_with : Option String := none
  max_length : Option Nat := none
  uniqueness : Option String := none
deriving DecidableEq, Repr

/-- The `Suggestion` schema from `schemas.py`. -/
structure Suggestion where
  name : String
  gender : Option String := none
  origin : Option String := none
  meaning : Option String := none
  themes : List String := []
  score : ℚ := 0
  rationale : Option String := none
deriving DecidableEq, Repr

/-- The fixed seed list `BASIC_NAMES` from `main.py`. -/
def BASIC_NAMES : List NameRecord := [
  ⟨"James", "boy", "English", "supplanter", ["classic", "biblical"], 0.2⟩,
  ⟨"Elizabeth", "girl", "English", "oath of God", ["classic", "biblical"], 0.2⟩,
  ⟨"Grace", "girl", "English", "grace", ["virtue", "classic"], 0.15⟩,
  ⟨"Aoife", "girl", "Irish", "beauty, radiance", ["celtic", "myth"], 0.02⟩,
  ⟨"Finn", "boy", "Irish", "fair", ["celtic", "modern"], 0.08⟩,
  ⟨"Aarav", "boy", "Sanskrit", "peaceful", ["hindu", "virtue"], 0.1⟩,
  ⟨"Anaya", "girl", "Sanskrit", "caring, protection", ["hindu", "virtue"], 0.09⟩,
  ⟨"Zayd", "boy", "Arabic", "growth, abundance", ["muslim", "virtue"], 0.04⟩,
  ⟨"Layla", "girl", "Arabic", "night", ["muslim", "poetic"], 0.14⟩,
  ⟨"Mateo", "boy", "Spanish", "gift of God", ["biblical", "classic"], 0.18⟩,
  ⟨"Sofia", "girl", "Greek/Spanish", "wisdom", ["classic"], 0.2⟩,
  ⟨"Asha", "girl", "Swahili", "life, hope", ["virtue", "nature"], 0.05⟩,
  ⟨"Kehinde", "boy", "Yoruba", "second-born of twins", ["heritage"], 0.01⟩,
  ⟨"Wei", "unisex", "Chinese", "great, mighty", ["virtue"], 0.06⟩,
  ⟨"Mei", "girl", "Chinese", "beautiful", ["virtue"], 0.07⟩,
  ⟨"Noah", "boy", "Hebrew", "rest, comfort", ["biblical", "classic"], 0.22⟩,
  ⟨"Miriam", "girl", "Hebrew", "wished-for child", ["biblical", "classic"], 0.03⟩,
  ⟨"Atlas", "boy", "Greek", "bearer of the heavens", ["myth", "modern"], 0.05⟩,
  ⟨"Iris", "girl", "Greek", "rainbow", ["nature", "myth"], 0.09⟩,
  ⟨"Mila", "girl", "Slavic", "gracious, dear", ["modern", "virtue"], 0.16⟩,
  ⟨"Nikolai", "boy", "Slavic", "victory of the people", ["classic"], 0.04⟩,
  ⟨"Ren", "unisex", "Japanese", "lotus, love", ["nature", "modern"], 0.05⟩,
  ⟨"Sora", "unisex", "Japanese", "sky", ["nature"], 0.03⟩]

/-- Python `max(a, b)` on rationals. -/
def pyMax (a b : ℚ) : ℚ := if a ≤ b then b else a

/-- Python `abs(q)` on rationals. -/
def pyAbs (q : ℚ) : ℚ := if q < 0 then -q else q

/-- The uniqueness-versus-popularity contribution of `score_name`
(`main.py` lines 156-163). -/
def uniquenessTerm (u : Option String) (pop : ℚ) : ℚ :=
  if u = some "unique" then pyMax 0 (0.8 - pop)
  else if u = some "common" then pop
  else 0.5 * (0.6 - pyAbs (pop - 0.6))

/-- `score_name` from `main.py`, translated step by step; each `let score :=`
mirrors one `score +=` block of the source. Empty strings and empty lists are
falsy in Python, hence the nonemptiness guards. The two character accesses
`n[0]` and `s[0]` of the source are modelled with `headD` (see
`score_nameChecked` for the variant where they are fallible). -/
def score_name (pref : Preference) (item : NameRecord) : ℚ :=
  let score : ℚ := 0
  -- Gender match
  let score :=
    match pref.gender with
    | some g =>
      if g ≠ "" then
        if item.gender = g ∨ (g = "unisex" ∧ item.gender = "unisex") then score + 2
        else score - 0.5
      else score
    | none => score
  -- Culture/origin
  let score :=
    if pref.cultures ≠ [] ∧ item.origin ≠ "" ∧
        pref.cultures.any (fun c => pyIn (lowerStr c) (lowerStr item.origin)) then
      score + 1.5
    else score
  -- Languages/themes as soft preference
  let score :=
    if pref.languages ≠ [] ∧
        pref.languages.any
          (fun lang => pyIn (lowerStr lang) (lowerStr (String.intercalate "," item.themes))) then
      score + 0.5
    else score
  -- Beliefs/themes
  let score :=
    if pref.beliefs ≠ [] ∧
        pref.beliefs.any
          (fun b => pyIn (lowerStr b) (lowerStr (String.intercalate "," item.themes))) then
      score + 1
    else score
  -- Style/themes
  let score :=
    match pref.style with
    | some st =>
      if st ≠ "" ∧ pyIn (lowerStr st) (lowerStr (String.intercalate "," item.themes)) then
        score + 1
      else score
    | none => score
  -- Starts with / length
  let score :=
    match pref.starts_with with
    | some sw =>
      if sw ≠ "" ∧ pyStartsWith (lowerStr item.name) (lowerStr sw) then score + 0.8
      else score
    | none => score
  let score :=
    match pref.max_length with
    | some L => if L ≠ 0 ∧ item.name.length ≤ L then score + 0.4 else score
    | none => score
  -- Surname flow heuristic
  let score :=
    if pref.surname ≠ "" then
      let n := lowerStr item.name
      let s := lowerStr pref.surname
      let score := if n.headD ' ' = s.headD ' ' then score - 0.2 else score
      if n.length > 2 ∧ s.length > 2 ∧ last2 n = last2 s then score - 0.2 else score
    else score
  -- Uniqueness vs popularity
  let score := score + uniquenessTerm pref.uniqueness item.popularity
  -- Sibling similarity penalty
  pref.sibling_names.foldl (fun sc sib =>
    if sib ≠ "" then
      let sibL := lowerStr sib
      let sc := if pyStartsWith (lowerStr item.name) (sibL.take 1) then sc - 0.3 else sc
      if sibL.length > 2 ∧ pyEndsWith (lowerStr item.name) (last2 sibL) then sc - 0.3 else sc
    else sc) score

/-- The hard-filtered, scored list `ranked` built by the loop of
`generate_suggestions` (`main.py` lines 179-186): a record is dropped when
`max_length` is truthy and the name is too long, or when `gender` is truthy
and the record gender is in neither `[pref.gender, "unisex"]`. -/
def rankedPairs (pref : Preference) : List (ℚ × NameRecord) :=
  BASIC_NAMES.filterMap (fun item =>
    let s := score_name pref item
    let lengthBad : Bool :=
      match pref.max_length with
      | some L => decide (L ≠ 0) && decide (L < item.name.length)
      | none => false
    let genderBad : Bool :=
      match pref.gender with
      | some g => decide (g ≠ "") && !(decide (item.gender = g) || decide (item.gender = "unisex"))
      | none => false
    if lengthBad then none
    else if genderBad then none
    else some (s, item))

/-- `ranked.sort(key=lambda x: x[0], reverse=True)`: a stable descending sort
on the score component, modelled by `mergeSort` with the reversed order. -/
def sortedPairs (pref : Preference) : List (ℚ × NameRecord) :=
  (rankedPairs pref).mergeSort (fun a b => decide (b.1 ≤ a.1))

/-- Python `round(q, 3)` (the tie convention is irrelevant here: every score
produced by `score_name` is a multiple of 1/200, hence `q * 1000` is an
integer and rounding is exact). -/
def round3 (q : ℚ) : ℚ := ((round (q * 1000) : ℤ) : ℚ) / 1000

/-- The constant rationale string attached to every suggestion. -/
def rationaleText : String :=
  "Ranked using your preferences for culture, themes, style, and flow with your surname"

/-- `generate_suggestions` from `main.py`: filter and score, sort descending,
truncate to `limit`, wrap into `Suggestion` values. -/
def generate_suggestions (pref : Preference) (limit : Nat) : List Suggestion :=
  ((sortedPairs pref).take limit).map (fun x =>
    { name := x.2.name
      gender := some x.2.gender
      origin := some x.2.origin
      meaning := some x.2.meaning
      themes := x.2.themes
      score := round3 x.1
      rationale := some rationaleText })

/-- The `Generation` schema from `schemas.py`. -/
structure Generation where
  preference : Preference
  suggestions : List Suggestion
  notes : Option String := none

/-- The request body of `POST /api/generate`: a `Preference` plus an optional
quantity defaulting to 12. -/
structure GenerateRequest extends Preference where
  quantity : Option Nat := some 12

/-- The response body of `POST /api/generate`. -/
structure GenerateResponse where
  suggestions : List Suggestion
deriving DecidableEq

/-- Python `req.quantity or 12`: both `None` and the falsy `0` fall back
to 12. -/
def effectiveQuantity (q : Option Nat) : Nat :=
  match q with
  | none => 12
  | some 0 => 12
  | some n => n

/-- `api_generate` from `main.py`. The persistence sink
(`create_document("generation", gen)`) is an external collaborator, passed as
a fallible function; the source wraps the call in try/except and discards the
outcome, so both outcomes produce the same response. -/
def api_generate (sink : Generation → Except String Unit)
    (req : GenerateRequest) : GenerateResponse :=
  let pref := req.toPreference
  let qty := effectiveQuantity req.quantity
  let suggestions := generate_suggestions pref qty
  match sink { preference := pref, suggestions := suggestions } with
  | .ok _ => { suggestions := suggestions }
  | .error _ => { suggestions := suggestions }

/-- Modelled from the spec, section 4.2: the scoring table, written as one
additive sum of independent contributions, row by row and in table order.
This is the refinement-side definition compared with `score_name`. -/
def spec_score (pref : Preference) (item : NameRecord) : ℚ :=
  (if pref.gender.isSome ∧
      (item.gender = pref.gender.getD "" ∨
        (pref.gender = some "unisex" ∧ item.gender = "unisex")) then 2 else 0)
  + (if pref.gender.isSome ∧
      ¬(item.gender = pref.gender.getD "" ∨
        (pref.gender = some "unisex" ∧ item.gender = "unisex")) then -0.5 else 0)
  + (if pref.cultures.any (fun c => pyIn (lowerStr c) (lowerStr item.origin)) then 1.5 else 0)
  + (if pref.languages.any
        (fun lang => pyIn (lowerStr lang) (lowerStr (String.intercalate "," item.themes))) then
      0.5 else 0)
  + (if pref.beliefs.any
        (fun b => pyIn (lowerStr b) (lowerStr (String.intercalate "," item.themes))) then
      1 else 0)
  + (if pref.style.isSome ∧
        pyIn (lowerStr (pref.style.getD "")) (lowerStr (String.intercalate "," item.themes)) then
      1 else 0)
  + (if pref.starts_with.isSome ∧
        pyStartsWith (lowerStr item.name) (lowerStr (pref.starts_with.getD "")) then
      0.8 else 0)
  + (if pref.max_length.isSome ∧ item.name.length ≤ pref.max_length.getD 0 then 0.4 else 0)
  + (if pref.surname ≠ "" ∧ item.name ≠ "" ∧
        (lowerStr item.name).headD ' ' = (lowerStr pref.surname).headD ' ' then -0.2 else 0)
  + (if 2 < item.name.length ∧ 2 < pref.surname.length ∧
        last2 (lowerStr item.name) = last2 (lowerStr pref.surname) then -0.2 else 0)
  + (if pref.uniqueness = some "unique" then max 0 (0.8 - item.popularity)
      else if pref.uniqueness = some "common" then item.popularity
      else 0.5 * (0.6 - |item.popularity - 0.6|))
  + (pref.sibling_names.map (fun sib =>
      (if sib ≠ "" ∧ pyStartsWith (lowerStr item.name) ((lowerStr sib).take 1) then
        -0.3 else 0)
      + (if sib ≠ "" ∧ 2 < sib.length ∧
            pyEndsWith (lowerStr item.name) (last2 (lowerStr sib)) then -0.3 else 0))).sum

/-- Well-formedness of a `Preference`, following the data-model section of the
spec: `gender` is one of boy/girl/unisex when present, `max_length` is a
positive integer when present, and the optional text fields are not the empty
string (an absent optional field is `none`). -/
def Preference.WF (p : Preference) : Prop :=
  (p.gender = none ∨ p.gender = some "boy" ∨ p.gender = some "girl" ∨ p.gender = some "unisex")
  ∧ p.max_length ≠ some 0
  ∧ p.style ≠ some ""
  ∧ p.starts_with ≠ some ""

instance (p : Preference) : Decidable p.WF :=
  inferInstanceAs (Decidable
    ((p.gender = none ∨ p.gender = some "boy" ∨ p.gender = some "girl" ∨
        p.gender = some "unisex")
      ∧ p.max_length ≠ some 0
      ∧ p.style ≠ some ""
      ∧ p.starts_with ≠ some ""))

lemma pyMax_eq_max (a b : ℚ) : pyMax a b = max a b := by
  rw [pyMax, max_def]

lemma pyAbs_eq_abs (q : ℚ) : pyAbs q = |q| := by
  unfold pyAbs
  split
  · rw [abs_of_neg]; assumption
  · rw [abs_of_nonneg]; exact not_lt.mp (by assumption)

lemma lowerStr_length (s : String) : (lowerStr s).length = s.length := by
  show (s.data.map Char.toLower).length = s.length
  rw [List.length_map]
  rfl

lemma lowerStr_ne_nil {s : String} (h : s ≠ "") : lowerStr s ≠ [] := by
  simp only [lowerStr, ne_eq, List.map_eq_nil_iff]
  intro hd
  exact h (by cases s; simp_all)

lemma add_if_step (c : Prop) [Decidable c] (x a : ℚ) :
    (if c then x + a else x) = x + (if c then a else 0) := by
  split <;> simp

lemma gender_step (c : Prop) [Decidable c] (x : ℚ) :
    (if c then x + 2 else x - 0.5)
      = x + (if c then 2 else 0) + (if ¬c then -0.5 else 0) := by
  by_cases h : c <;> simp [h] <;> ring

lemma surname_step (c0 c1 c2 : Prop) [Decidable c0] [Decidable c1] [Decidable c2] (x : ℚ) :
    (if c0 then
      (if c2 then (if c1 then x - 0.2 else x) - 0.2 else (if c1 then x - 0.2 else x))
     else x)
      = x + (if c0 ∧ c1 then -0.2 else 0) + (if c0 ∧ c2 then -0.2 else 0) := by
  by_cases h0 : c0 <;> by_cases h1 : c1 <;> by_cases h2 : c2 <;> simp [h0, h1, h2] <;> ring

lemma sibling_fold (nameL : List Char) (sibs : List String) (init : ℚ) :
    sibs.foldl (fun sc sib =>
      if sib ≠ "" then
        (if (lowerStr sib).length > 2 ∧ pyEndsWith nameL (last2 (lowerStr sib)) then
          (if pyStartsWith nameL ((lowerStr sib).take 1) then sc - 0.3 else sc) - 0.3
         else (if pyStartsWith nameL ((lowerStr sib).take 1) then sc - 0.3 else sc))
      else sc) init
    = init + (sibs.map (fun sib =>
        (if sib ≠ "" ∧ pyStartsWith nameL ((lowerStr sib).take 1) then -0.3 else 0)
        + (if sib ≠ "" ∧ 2 < sib.length ∧
              pyEndsWith nameL (last2 (lowerStr sib)) then -0.3 else 0))).sum := by
  induction sibs generalizing init with
  | nil => simp
  | cons sib t ih =>
    simp only [List.foldl_cons, List.map_cons, List.sum_cons]
    rw [ih]
    have hlen : (lowerStr sib).length = sib.length := lowerStr_length sib
    by_cases h0 : sib = "" <;>
      by_cases h1 : pyStartsWith nameL ((lowerStr sib).take 1) <;>
      by_cases h2 : 2 < sib.length ∧ pyEndsWith nameL (last2 (lowerStr sib)) <;>
      simp [h0, h1, h2, hlen, and_assoc] <;> ring



theorem score_name_eq_spec (pref : Preference) (item : NameRecord)
    (hwf : pref.WF) (hn : item.name ≠ "") (ho : item.origin ≠ "") :
    score_name pref item = spec_score pref item := by
  obtain ⟨hg, hml, hst, hsw⟩ := hwf
  have hcult : (if (pref.cultures ≠ [] ∧ item.origin ≠ "" ∧
        pref.cultures.any (fun c => pyIn (lowerStr c) (lowerStr item.origin))) then
          (1.5 : ℚ) else 0)
      = (if pref.cultures.any (fun c => pyIn (lowerStr c) (lowerStr item.origin)) then
          (1.5 : ℚ) else 0) := by
    refine if_congr ⟨fun h => h.2.2, fun h => ⟨?_, ho, h⟩⟩ rfl rfl
    intro he
    rw [he] at h
    simp at h
  have hlang : (if (pref.languages ≠ [] ∧
        pref.languages.any
          (fun lang => pyIn (lowerStr lang) (lowerStr (String.intercalate "," item.themes)))) then
          (0.5 : ℚ) else 0)
      = (if pref.languages.any
          (fun lang => pyIn (lowerStr lang) (lowerStr (String.intercalate "," item.themes))) then
          (0.5 : ℚ) else 0) := by
    refine if_congr ⟨fun h => h.2, fun h => ⟨?_, h⟩⟩ rfl rfl
    intro he
    rw [he] at h
    simp at h
  have hblf : (if (pref.beliefs ≠ [] ∧
        pref.beliefs.any
          (fun b => pyIn (lowerStr b) (lowerStr (String.intercalate "," item.themes)))) then
          (1 : ℚ) else 0)
      = (if pref.beliefs.any
          (fun b => pyIn (lowerStr b) (lowerStr (String.intercalate "," item.themes))) then
          (1 : ℚ) else 0) := by
    refine if_congr ⟨fun h => h.2, fun h => ⟨?_, h⟩⟩ rfl rfl
    intro he
    rw [he] at h
    simp at h
  have hsur1 : (if (pref.surname ≠ "" ∧
        (lowerStr item.name).headD ' ' = (lowerStr pref.surname).headD ' ') then
          (-0.2 : ℚ) else 0)
      = (if (pref.surname ≠ "" ∧ item.name ≠ "" ∧
        (lowerStr item.name).headD ' ' = (lowerStr pref.surname).headD ' ') then
          (-0.2 : ℚ) else 0) := by
    refine if_congr ⟨fun h => ⟨h.1, hn, h.2⟩, fun h => ⟨h.1, h.2.2⟩⟩ rfl rfl
  have hsur2 : (if (pref.surname ≠ "" ∧
        ((lowerStr item.name).length > 2 ∧ (lowerStr pref.surname).length > 2 ∧
          last2 (lowerStr item.name) = last2 (lowerStr pref.surname))) then
          (-0.2 : ℚ) else 0)
      = (if (2 < item.name.length ∧ 2 < pref.surname.length ∧
          last2 (lowerStr item.name) = last2 (lowerStr pref.surname)) then
          (-0.2 : ℚ) else 0) := by
    refine if_congr ⟨?_, ?_⟩ rfl rfl
    · rintro ⟨-, h1, h2, h3⟩
      exact ⟨by rwa [lowerStr_length] at h1, by rwa [lowerStr_length] at h2, h3⟩
    · rintro ⟨h1, h2, h3⟩
      refine ⟨?_, by rwa [lowerStr_length], by rwa [lowerStr_length], h3⟩
      intro he
      rw [he] at h2
      exact absurd h2 (by decide)
  have hg' : (pref.gender = none ∧ ("x" : String) ≠ "") ∨
      ∃ g, pref.gender = some g ∧ g ≠ "" := by
    rcases hg with h | h | h | h
    · exact Or.inl ⟨h, by decide⟩
    · exact Or.inr ⟨"boy", h, by decide⟩
    · exact Or.inr ⟨"girl", h, by decide⟩
    · exact Or.inr ⟨"unisex", h, by decide⟩
  have hst' : (pref.style = none ∧ ("x" : String) ≠ "") ∨
      ∃ s, pref.style = some s ∧ s ≠ "" := by
    cases h : pref.style with
    | none => exact Or.inl ⟨rfl, by decide⟩
    | some s => exact Or.inr ⟨s, rfl, fun he => hst (by rw [h, he])⟩
  have hsw' : (pref.starts_with = none ∧ ("x" : String) ≠ "") ∨
      ∃ s, pref.starts_with = some s ∧ s ≠ "" := by
    cases h : pref.starts_with with
    | none => exact Or.inl ⟨rfl, by decide⟩
    | some s => exact Or.inr ⟨s, rfl, fun he => hsw (by rw [h, he])⟩
  have hml' : (pref.max_length = none ∧ (1 : Nat) ≠ 0) ∨
      ∃ L, pref.max_length = some L ∧ L ≠ 0 := by
    cases h : pref.max_length with
    | none => exact Or.inl ⟨rfl, by decide⟩
    | some L => exact Or.inr ⟨L, rfl, fun he => hml (by rw [h, he])⟩
  clear hg hst hsw hml
  rcases hg' with ⟨hG, hGne⟩ | ⟨g, hG, hGne⟩ <;>
    rcases hst' with ⟨hS, hSne⟩ | ⟨stv, hS, hSne⟩ <;>
    rcases hsw' with ⟨hW, hWne⟩ | ⟨swv, hW, hWne⟩ <;>
    rcases hml' with ⟨hM, hMne⟩ | ⟨L, hM, hMne⟩
  all_goals
    simp only [score_name, spec_score, uniquenessTerm, hG, hS, hW, hM]
  all_goals rw [sibling_fold]
  all_goals rw [surname_step]
  all_goals try simp only [gender_step]
  all_goals try simp only [add_if_step]
  all_goals rw [hcult, hlang, hblf, hsur1, hsur2]
  all_goals
    simp only [ne_eq, hGne, hSne, hWne, hMne, Option.isSome_some, Option.isSome_none,
      Option.getD_some, Option.some.injEq, false_and, true_and, not_false_eq_true,
      ite_false, ite_true, and_true, reduceCtorEq, not_false_iff,
      pyMax_eq_max, pyAbs_eq_abs]
  all_goals ring



lemma desc_trans (a b c : ℚ × NameRecord)
    (hab : decide (b.1 ≤ a.1) = true) (hbc : decide (c.1 ≤ b.1) = true) :
    decide (c.1 ≤ a.1) = true := by
  simp only [decide_eq_true_eq] at *
  exact le_trans hbc hab

lemma desc_total (a b : ℚ × NameRecord) :
    (decide (b.1 ≤ a.1) || decide (a.1 ≤ b.1)) = true := by
  rcases le_total a.1 b.1 with h | h <;> simp [h]

lemma sortedPairs_pairwise (pref : Preference) :
    (sortedPairs pref).Pairwise (fun a b => b.1 ≤ a.1) := by
  have h := List.sorted_mergeSort desc_trans desc_total (rankedPairs pref)
  exact h.imp (fun hab => of_decide_eq_true hab)

lemma round3_mono {a b : ℚ} (h : a ≤ b) : round3 a ≤ round3 b := by
  unfold round3
  have h1 : round (a * 1000) ≤ round (b * 1000) := by
    rw [round_eq, round_eq]
    exact Int.floor_le_floor (by linarith)
  have h2 : ((round (a * 1000) : ℤ) : ℚ) ≤ ((round (b * 1000) : ℤ) : ℚ) := Int.cast_le.mpr h1
  linarith

/-- Claim C4: the sequence returned by the generator is sorted in
non-increasing order of the rounded score: for any two consecutive
Suggestions, the first scores at least the second. -/
theorem c4_sorted (pref : Preference) (limit : Nat) :
    List.Chain' (fun a b : Suggestion => b.score ≤ a.score) (generate_suggestions pref limit) := by
  have hp : ((sortedPairs pref).take limit).Pairwise (fun a b => b.1 ≤ a.1) :=
    (sortedPairs_pairwise pref).sublist (List.take_sublist _ _)
  unfold generate_suggestions
  refine List.Pairwise.chain' ?_
  rw [List.pairwise_map]
  exact hp.imp (fun hab => round3_mono hab)

/-- Claim C7: the engine operation `generate_suggestions` with quantity 0
returns the empty sequence for every Preference. -/
theorem c7_quantity_zero (pref : Preference) :
    generate_suggestions pref 0 = [] := by
  simp [generate_suggestions]


/-- Claim C2: every Suggestion returned by the generator satisfies both hard
filters: with `gender` set the suggestion gender is the requested one or
unisex, and with `max_length` set the suggestion name is no longer than it;
failing records are excluded from the output entirely. -/
theorem c2_hard_filters (pref : Preference) (limit : Nat) (hwf : pref.WF) :
    ∀ sugg ∈ generate_suggestions pref limit,
      (∀ g, pref.gender = some g → sugg.gender = some g ∨ sugg.gender = some "unisex") ∧
      (∀ L, pref.max_length = some L → sugg.name.length ≤ L) := by
  intro sugg hs
  unfold generate_suggestions at hs
  rw [List.mem_map] at hs
  obtain ⟨x, hx, rfl⟩ := hs
  have hx1 : x ∈ sortedPairs pref := (List.take_sublist _ _).subset hx
  have hx2 : x ∈ rankedPairs pref := by
    unfold sortedPairs at hx1
    exact List.mem_mergeSort.mp hx1
  unfold rankedPairs at hx2
  rw [List.mem_filterMap] at hx2
  obtain ⟨item, hitem, hmk⟩ := hx2
  simp only at hmk
  constructor
  · intro g hg
    rw [hg] at hmk
    split at hmk
    · exact absurd hmk (by simp)
    · split at hmk
      · exact absurd hmk (by simp)
      · rename_i hgb
        injection hmk with hx'
        subst hx'
        have hgne : g ≠ "" := by
          rcases hwf.1 with h | h | h | h <;> rw [h] at hg <;> simp_all <;> subst hg <;> decide
        simp only [decide_eq_true_eq, Bool.and_eq_true, Bool.not_eq_true',
          Bool.or_eq_false_iff, decide_eq_false_iff_not, not_and, Bool.not_eq_false] at hgb
        rcases Decidable.em (item.gender = g) with h | h
        · exact Or.inl (by simp [h])
        · rcases Decidable.em (item.gender = "unisex") with h2 | h2
          · exact Or.inr (by simp [h2])
          · exact absurd (hgb hgne) (by simp [h, h2])
  · intro L hL
    rw [hL] at hmk
    split at hmk
    · exact absurd hmk (by simp)
    · rename_i hlb
      split at hmk
      · exact absurd hmk (by simp)
      · injection hmk with hx'
        subst hx'
        have hLne : L ≠ 0 := by
          have := hwf.2.1
          rw [hL] at this
          simpa using this
        simp only [Bool.and_eq_true, decide_eq_true_eq, Bool.not_eq_true',
          decide_eq_false_iff_not, not_and, not_lt] at hlb
        simpa using hlb hLne

/-- Claim C5: generation is deterministic (two calls with the same Preference
agree), and the descending sort is stable: for every score value, the entries
of the sorted ranking with that score are exactly the entries of the unsorted
ranking with that score in the same order, and the unsorted ranking lists
records in catalog declaration order. -/
theorem c5_deterministic_stable (pref : Preference) (limit : Nat) (s : ℚ) :
    generate_suggestions pref limit = generate_suggestions pref limit ∧
    (sortedPairs pref).filter (fun x => decide (x.1 = s)) =
      (rankedPairs pref).filter (fun x => decide (x.1 = s)) := by
  refine ⟨rfl, ?_⟩
  have hmemF : ∀ x ∈ (rankedPairs pref).filter (fun x => decide (x.1 = s)), x.1 = s := by
    intro x hx
    exact of_decide_eq_true (List.mem_filter.mp hx).2
  have hpw : ((rankedPairs pref).filter (fun x => decide (x.1 = s))).Pairwise
      (fun a b => (decide (b.1 ≤ a.1)) = true) := by
    apply List.pairwise_of_forall_mem_list
    intro a ha b hb
    rw [decide_eq_true_eq, hmemF a ha, hmemF b hb]
  have hsubl : List.Sublist ((rankedPairs pref).filter (fun x => decide (x.1 = s)))
      (sortedPairs pref) :=
    List.sublist_mergeSort desc_trans desc_total hpw (List.filter_sublist _)
  have hself : ((rankedPairs pref).filter (fun x => decide (x.1 = s))).filter
      (fun x => decide (x.1 = s)) = (rankedPairs pref).filter (fun x => decide (x.1 = s)) :=
    List.filter_eq_self.mpr (fun a ha => List.mem_filter.mp ha |>.2)
  have hsub2 : List.Sublist ((rankedPairs pref).filter (fun x => decide (x.1 = s)))
      ((sortedPairs pref).filter (fun x => decide (x.1 = s))) := by
    have h := hsubl.filter (fun x => decide (x.1 = s))
    rwa [hself] at h
  have hlen : ((sortedPairs pref).filter (fun x => decide (x.1 = s))).length =
      ((rankedPairs pref).filter (fun x => decide (x.1 = s))).length :=
    ((List.mergeSort_perm (rankedPairs pref) _).filter _).length_eq
  exact (hsub2.eq_of_length hlen.symm).symm



/-- The preference of the C9 scenario in the spec test section. -/
def prefC9 : Preference :=
  { surname := "Smith", gender := some "boy", cultures := ["Hebrew"],
    uniqueness := some "unique" }

/-- The Noah record of the seed catalog. -/
def noahRec : NameRecord :=
  ⟨"Noah", "boy", "Hebrew", "rest, comfort", ["biblical", "classic"], 0.22⟩

set_option maxRecDepth 8000 in
unseal Rat.ofScientific Rat.mul Rat.inv Rat.add Rat.sub in
/-- Claim C9: for the Preference with surname Smith, gender boy, cultures
[Hebrew], uniqueness unique, and quantity 1, the generator returns exactly one
Suggestion and its name is Noah. -/
theorem c9_top_is_noah :
    (generate_suggestions prefC9 1).map Suggestion.name = ["Noah"] := by
  have hperm : List.Perm (sortedPairs prefC9) (rankedPairs prefC9) :=
    List.mergeSort_perm _ _
  have hlen : (sortedPairs prefC9).length = 12 := by
    rw [hperm.length_eq]
    decide
  obtain ⟨h, t, heq⟩ : ∃ h t, sortedPairs prefC9 = h :: t := by
    cases hs : sortedPairs prefC9 with
    | nil => rw [hs] at hlen; simp at hlen
    | cons a l => exact ⟨a, l, rfl⟩
  have hmem : h ∈ rankedPairs prefC9 :=
    hperm.subset (by rw [heq]; exact List.mem_cons_self _ _)
  have hpw := sortedPairs_pairwise prefC9
  rw [heq] at hpw
  have hNoah : ((4.08 : ℚ), noahRec) ∈ rankedPairs prefC9 := by decide
  have hmax : ∀ x ∈ rankedPairs prefC9, x.1 ≤ h.1 := by
    intro x hx
    have hx' : x ∈ h :: t := by
      rw [← heq]
      exact hperm.symm.subset hx
    rcases List.mem_cons.mp hx' with hxe | hxt
    · rw [hxe]
    · exact (List.pairwise_cons.mp hpw).1 x hxt
  have hub : h.1 ≤ 4.08 := by
    have hall : ∀ x ∈ rankedPairs prefC9, x.1 ≤ (4.08 : ℚ) := by decide
    exact hall h hmem
  have h1 : h.1 = 4.08 := le_antisymm hub (hmax _ hNoah)
  have hh : h = ((4.08 : ℚ), noahRec) := by
    have honly : ∀ x ∈ rankedPairs prefC9, x.1 = (4.08 : ℚ) → x = ((4.08 : ℚ), noahRec) := by
      decide
    exact honly h hmem h1
  unfold generate_suggestions
  rw [heq, hh]
  rfl



lemma uniquenessTerm_balanced (pop : ℚ) :
    uniquenessTerm none pop = 0.5 * (0.6 - |pop - 0.6|) := by
  simp [uniquenessTerm, pyAbs_eq_abs]

/-- Claim C3, counterexample: contrary to the open question in the spec, the
balanced uniqueness contribution computed by `score_name` is never strictly
negative for a popularity inside the documented range [0, 1]. -/
theorem c3_counterexample :
    ¬ ∃ pop : ℚ, 0 ≤ pop ∧ pop ≤ 1 ∧ uniquenessTerm none pop < 0 := by
  rintro ⟨pop, h0, h1, hneg⟩
  rw [uniquenessTerm_balanced] at hneg
  rcases abs_cases (pop - 0.6) with ⟨ha, -⟩ | ⟨ha, -⟩ <;> rw [ha] at hneg <;> linarith

/-- Claim C3, amended: for every popularity in [0, 1] the default (balanced)
uniqueness contribution of `score_name` is nonnegative; the formula only turns
negative for popularity above 1.2 or below 0, outside the documented range. -/
theorem c3_balanced_nonneg (pop : ℚ) (h0 : 0 ≤ pop) (h1 : pop ≤ 1) :
    0 ≤ uniquenessTerm none pop := by
  rw [uniquenessTerm_balanced]
  rcases abs_cases (pop - 0.6) with ⟨ha, -⟩ | ⟨ha, -⟩ <;> rw [ha] <;> linarith

theorem c3_balanced_nonneg_witness :
    (0 : ℚ) ≤ (1 : ℚ) / 2 ∧ (1 : ℚ) / 2 ≤ 1 ∧ 0 ≤ uniquenessTerm none ((1 : ℚ) / 2) :=
  ⟨by norm_num, by norm_num, c3_balanced_nonneg ((1 : ℚ) / 2) (by norm_num) (by norm_num)⟩

lemma api_generate_suggestions (sink : Generation → Except String Unit)
    (req : GenerateRequest) :
    (api_generate sink req).suggestions =
      generate_suggestions req.toPreference (effectiveQuantity req.quantity) := by
  dsimp only [api_generate]
  split <;> rfl

/-- Claim C6: when the persistence sink fails on every call, `api_generate`
returns the same response as with a succeeding sink, namely the full ranked
suggestion list; the failure never propagates to the caller. -/
theorem c6_persistence_fail_open (req : GenerateRequest)
    (sink : Generation → Except String Unit)
    (hfail : ∀ g, (sink g).isOk = false) :
    api_generate sink req = api_generate (fun _ => Except.ok ()) req ∧
    (api_generate sink req).suggestions =
      generate_suggestions req.toPreference (effectiveQuantity req.quantity) := by
  constructor
  · dsimp only [api_generate]
    split <;> rfl
  · exact api_generate_suggestions sink req

def reqW6 : GenerateRequest := { surname := "Kim", quantity := some 2 }

theorem c6_witness :
    api_generate (fun _ => Except.error "db down") reqW6 =
      api_generate (fun _ => Except.ok ()) reqW6 ∧
    (api_generate (fun _ => Except.error "db down") reqW6).suggestions =
      generate_suggestions reqW6.toPreference (effectiveQuantity reqW6.quantity) :=
  c6_persistence_fail_open reqW6 (fun _ => Except.error "db down") (fun _ => rfl)

/-- Claim C8: at the HTTP operation `api_generate`, a request quantity of 0
or an omitted quantity is coerced to the default 12 by `req.quantity or 12`,
so the endpoint behaves as if quantity 12 had been requested and returns up to
12 suggestions, although the core engine returns the empty sequence for
limit 0. -/
theorem c8_quantity_zero_coerced (req : GenerateRequest)
    (sink : Generation → Except String Unit)
    (hq : req.quantity = some 0 ∨ req.quantity = none) :
    api_generate sink req = api_generate sink { req with quantity := some 12 } ∧
    generate_suggestions req.toPreference 0 = [] ∧
    (api_generate sink req).suggestions.length ≤ 12 := by
  have hqty : effectiveQuantity req.quantity = 12 := by
    rcases hq with h | h <;> rw [h] <;> rfl
  refine ⟨?_, by simp [generate_suggestions], ?_⟩
  · dsimp only [api_generate]
    rw [hqty]
    rfl
  · rw [api_generate_suggestions sink req, hqty]
    unfold generate_suggestions
    rw [List.length_map]
    exact List.length_take_le _ _

def reqW8 : GenerateRequest := { surname := "Lee", quantity := some 0 }

theorem c8_witness :
    api_generate (fun _ => Except.ok ()) reqW8 =
      api_generate (fun _ => Except.ok ()) { reqW8 with quantity := some 12 } ∧
    generate_suggestions reqW8.toPreference 0 = [] ∧
    (api_generate (fun _ => Except.ok ()) reqW8).suggestions.length ≤ 12 :=
  c8_quantity_zero_coerced reqW8 (fun _ => Except.ok ()) (Or.inl rfl)

/-- Claim C1: for every well-formed Preference and every catalog record,
`score_name` equals the additive sum of the scoring table of the spec
(`spec_score`): gender match +2 / mismatch -0.5, culture +1.5, language +0.5,
belief +1, style +1, prefix +0.8, length fit +0.4, surname initial and rhyme
clashes -0.2 each, the uniqueness term, and -0.3 per matching sibling rule. -/
theorem c1_additive_scoring (pref : Preference) (item : NameRecord)
    (hwf : pref.WF) (hmem : item ∈ BASIC_NAMES) :
    score_name pref item = spec_score pref item := by
  have hprops : ∀ x ∈ BASIC_NAMES, x.name ≠ "" ∧ x.origin ≠ "" := by decide
  exact score_name_eq_spec pref item hwf (hprops item hmem).1 (hprops item hmem).2

def prefW1 : Preference :=
  { surname := "Day", cultures := ["Eng"], languages := ["classic"],
    beliefs := ["biblical"], sibling_names := ["Mia", ""], gender := some "boy",
    style := some "classic", starts_with := some "j", max_length := some 6,
    uniqueness := some "unique" }

def jamesRec : NameRecord :=
  ⟨"James", "boy", "English", "supplanter", ["classic", "biblical"], 0.2⟩

unseal Rat.ofScientific Rat.mul Rat.inv Rat.add Rat.sub in
theorem c1_witness : score_name prefW1 jamesRec = spec_score prefW1 jamesRec :=
  c1_additive_scoring prefW1 jamesRec (by decide) (by decide)

def prefW2 : Preference :=
  { surname := "Stone", gender := some "boy", max_length := some 5 }

theorem c2_witness :
    Preference.WF prefW2 ∧
    ∀ sugg ∈ generate_suggestions prefW2 12,
      (∀ g, prefW2.gender = some g → sugg.gender = some g ∨ sugg.gender = some "unisex") ∧
      (∀ L, prefW2.max_length = some L → sugg.name.length ≤ L) :=
  ⟨by decide, c2_hard_filters prefW2 12 (by decide)⟩



/-- Fallible variant of `score_name`: Python raises `IndexError` on out-of-range
subscripts, and the two subscript accesses `n[0]` and `s[0]` in the surname
block are the only fallible operations of `score_name` (all slices are total in
Python). They are modelled with `List.head?`; every other step is unchanged. -/
def score_nameChecked (pref : Preference) (item : NameRecord) : Option ℚ :=
  let score : ℚ := 0
  let score :=
    match pref.gender with
    | some g =>
      if g ≠ "" then
        if item.gender = g ∨ (g = "unisex" ∧ item.gender = "unisex") then score + 2
        else score - 0.5
      else score
    | none => score
  let score :=
    if pref.cultures ≠ [] ∧ item.origin ≠ "" ∧
        pref.cultures.any (fun c => pyIn (lowerStr c) (lowerStr item.origin)) then
      score + 1.5
    else score
  let score :=
    if pref.languages ≠ [] ∧
        pref.languages.any
          (fun lang => pyIn (lowerStr lang) (lowerStr (String.intercalate "," item.themes))) then
      score + 0.5
    else score
  let score :=
    if pref.beliefs ≠ [] ∧
        pref.beliefs.any
          (fun b => pyIn (lowerStr b) (lowerStr (String.intercalate "," item.themes))) then
      score + 1
    else score
  let score :=
    match pref.style with
    | some st =>
      if st ≠ "" ∧ pyIn (lowerStr st) (lowerStr (String.intercalate "," item.themes)) then
        score + 1
      else score
    | none => score
  let score :=
    match pref.starts_with with
    | some sw =>
      if sw ≠ "" ∧ pyStartsWith (lowerStr item.name) (lowerStr sw) then score + 0.8
      else score
    | none => score
  let score :=
    match pref.max_length with
    | some L => if L ≠ 0 ∧ item.name.length ≤ L then score + 0.4 else score
    | none => score
  let surnameStep : Option ℚ :=
    if pref.surname ≠ "" then
      let n := lowerStr item.name
      let s := lowerStr pref.surname
      match n.head?, s.head? with
      | some c1, some c2 =>
        let score := if c1 = c2 then score - 0.2 else score
        some (if n.length > 2 ∧ s.length > 2 ∧ last2 n = last2 s then score - 0.2 else score)
      | _, _ => none
    else some score
  surnameStep.map (fun score =>
    let score := score + uniquenessTerm pref.uniqueness item.popularity
    pref.sibling_names.foldl (fun sc sib =>
      if sib ≠ "" then
        let sibL := lowerStr sib
        let sc := if pyStartsWith (lowerStr item.name) (sibL.take 1) then sc - 0.3 else sc
        if sibL.length > 2 ∧ pyEndsWith (lowerStr item.name) (last2 sibL) then sc - 0.3 else sc
      else sc) score)

lemma score_nameChecked_eq (pref : Preference) (item : NameRecord) (hn : item.name ≠ "") :
    score_nameChecked pref item = some (score_name pref item) := by
  unfold score_nameChecked score_name
  by_cases hs : pref.surname = ""
  · simp [hs]
  · obtain ⟨c1, l1, he1⟩ : ∃ c1 l1, lowerStr item.name = c1 :: l1 := by
      rcases hx : lowerStr item.name with _ | ⟨c, l⟩
      · exact absurd hx (lowerStr_ne_nil hn)
      · exact ⟨c, l, rfl⟩
    obtain ⟨c2, l2, he2⟩ : ∃ c2 l2, lowerStr pref.surname = c2 :: l2 := by
      rcases hx : lowerStr pref.surname with _ | ⟨c, l⟩
      · exact absurd hx (lowerStr_ne_nil hs)
      · exact ⟨c, l, rfl⟩
    simp [hs, he1, he2]

/-- Fallible variant of `generate_suggestions`: the scores of all catalog
records are computed through `score_nameChecked` (Python evaluates
`score_name(pref, item)` before the filter tests in the loop); any failure
aborts the whole computation, as an uncaught exception would. -/
def generate_suggestionsChecked (pref : Preference) (limit : Nat) :
    Option (List Suggestion) := do
  let scored ← BASIC_NAMES.mapM (fun item =>
    (score_nameChecked pref item).map (fun s => (s, item)))
  let ranked := scored.filterMap (fun x =>
    let lengthBad : Bool :=
      match pref.max_length with
      | some L => decide (L ≠ 0) && decide (L < x.2.name.length)
      | none => false
    let genderBad : Bool :=
      match pref.gender with
      | some g => decide (g ≠ "") && !(decide (x.2.gender = g) || decide (x.2.gender = "unisex"))
      | none => false
    if lengthBad then none
    else if genderBad then none
    else some x)
  let sorted := ranked.mergeSort (fun a b => decide (b.1 ≤ a.1))
  pure ((sorted.take limit).map (fun x =>
    { name := x.2.name
      gender := some x.2.gender
      origin := some x.2.origin
      meaning := some x.2.meaning
      themes := x.2.themes
      score := round3 x.1
      rationale := some rationaleText }))

lemma mapM_eq_some {α β : Type} (f : α → Option β) (g : α → β) (l : List α)
    (h : ∀ a ∈ l, f a = some (g a)) : l.mapM f = some (l.map g) := by
  induction l with
  | nil => rfl
  | cons a t ih =>
    rw [List.mapM_cons, h a (List.mem_cons_self a t),
      ih (fun b hb => h b (List.mem_cons_of_mem a hb))]
    rfl

/-- Claim C10: `score_name` and `generate_suggestions` are total over the
static catalog for every Preference and quantity: the fallible variant, where
every character subscript of the source may fail as in Python, never fails and
agrees with the total model. -/
theorem c10_totality (pref : Preference) (limit : Nat) :
    generate_suggestionsChecked pref limit = some (generate_suggestions pref limit) := by
  have hnames : ∀ item ∈ BASIC_NAMES, item.name ≠ "" := by decide
  have hmapM : BASIC_NAMES.mapM
      (fun item => (score_nameChecked pref item).map (fun s => (s, item)))
      = some (BASIC_NAMES.map (fun item => (score_name pref item, item))) :=
    mapM_eq_some _ _ _ (fun item hitem => by
      rw [score_nameChecked_eq pref item (hnames item hitem)]
      rfl)
  unfold generate_suggestionsChecked
  rw [hmapM]
  show some _ = some _
  rw [List.filterMap_map]
  rfl

end BabyNames
